import Mathlib

/-!
Shallow embedding of the grocery-store application (`gorcery_app.py`):
inventory normalization, the session cart, and the checkout form logic.
Python floats are modelled as exact rationals; `round(x, 2)` is modelled
by `round2`; Python's string `hash` is an unspecified function passed as
a parameter `hashFn`.
-/

namespace Grocery

/-- `round(x, 2)`: round to two decimal places. -/
def round2 (q : ℚ) : ℚ := (round (q * 100) : ℤ) / 100

/-- `REQUIRED_COLS` from the source. -/
def REQUIRED_COLS : List String :=
  ["S.No", "Item Category", "Item Name", "Quantity available in stock", "Price"]

/-- A raw spreadsheet cell, as seen by `pd.to_numeric(..., errors="coerce")`:
either a numeric value, a non-numeric (unparseable) value, or an empty cell. -/
inductive Cell
  | num (v : ℚ)
  | text
  | empty
deriving DecidableEq, Repr

/-- `pd.to_numeric(c, errors="coerce")`: numeric cells keep their value,
everything else becomes NaN (`none`). -/
def toNumericOpt : Cell → Option ℚ
  | .num v => some v
  | .text => none
  | .empty => none

/-- `astype(int)` on a float value: truncation toward zero. -/
def intOfRat (q : ℚ) : ℤ := Int.tdiv q.num (q.den : ℤ)

/-- A raw inventory row: one cell per required column.  The name cell is
either a string or missing (NaN). -/
structure RawRow where
  sNoCell : Cell
  categoryCell : Option String
  nameCell : Option String
  qtyCell : Cell
  priceCell : Cell
deriving DecidableEq, Repr

/-- A raw inventory table: its column labels and its rows. -/
structure RawTable where
  cols : List String
  rows : List RawRow
deriving DecidableEq, Repr

/-- A normalized inventory row, after the numeric coercions of
`normalize_inventory`. -/
structure CookedRow where
  sNo : Option ℚ
  category : Option String
  name : Option String
  stock : ℤ
  price : ℚ
deriving DecidableEq, Repr

/-- The per-row effect of the column coercions in `normalize_inventory`:
`S.No` coerced to numeric keeping NA, stock coerced with `fillna(0).astype(int)`,
price coerced with `fillna(0.0)`. -/
def cookRow (r : RawRow) : CookedRow :=
  { sNo := toNumericOpt r.sNoCell
    category := r.categoryCell
    name := r.nameCell
    stock := intOfRat ((toNumericOpt r.qtyCell).getD 0)
    price := (toNumericOpt r.priceCell).getD 0 }

/-- `normalize_inventory`: checks the required columns, coerces the numeric
columns, then drops rows whose `Item Name` is NaN (`dropna`). -/
def normalize_inventory (t : RawTable) : Except (List String) (List CookedRow) :=
  if (REQUIRED_COLS.filter (fun c => ! t.cols.contains c)).isEmpty then
    .ok ((t.rows.map cookRow).filter (fun r => r.name.isSome))
  else
    .error (REQUIRED_COLS.filter (fun c => ! t.cols.contains c))

/-- An inventory row as used by the interactive session (`item_row`):
all rows shown in the UI have a concrete name. -/
structure ItemRow where
  sNo : Option ℤ
  category : String
  name : String
  stock : ℤ
  price : ℚ
deriving DecidableEq, Repr

/-- A cart line, the value stored in the `st.session_state.cart` dict. -/
structure CartLine where
  sNo : Option ℤ
  category : String
  itemName : String
  qty : ℤ
  unit_price : ℚ
  line_total : ℚ
deriving DecidableEq, Repr

/-- The cart: a Python dict from the integer key to the line, modelled as an
insertion-ordered association list. -/
abbrev Cart := List (ℤ × CartLine)

/-- The dict key used by `add_to_cart`:
`int(item_row["S.No"]) if pd.notna(item_row["S.No"]) else hash(item_row["Item Name"])`. -/
def cartKey (hashFn : String → ℤ) (row : ItemRow) : ℤ :=
  match row.sNo with
  | some n => n
  | none => hashFn row.name

/-- The in-place update of an existing line:
`cart[key]["qty"] += qty; cart[key]["line_total"] = round(qty * unit_price, 2)`. -/
def bumpLine (l : CartLine) (qty : ℤ) : CartLine :=
  let q := l.qty + qty
  { l with qty := q, line_total := round2 (q * l.unit_price) }

/-- The fresh line inserted when the key is not yet in the cart. -/
def newLine (row : ItemRow) (qty : ℤ) : CartLine :=
  { sNo := row.sNo
    category := row.category
    itemName := row.name
    qty := qty
    unit_price := row.price
    line_total := round2 (qty * row.price) }

/-- `add_to_cart(item_row, qty)`. -/
def add_to_cart (hashFn : String → ℤ) (row : ItemRow) (qty : ℤ) (cart : Cart) : Cart :=
  let key := cartKey hashFn row
  if cart.any (fun p => p.1 == key) then
    cart.map (fun p => if p.1 == key then (p.1, bumpLine p.2 qty) else p)
  else
    cart ++ [(key, newLine row qty)]

/-- The lines of the cart, in insertion order (`cart.values()`). -/
def cartLines (cart : Cart) : List CartLine := cart.map (fun p => p.2)

/-- `cart_total()`: `round(sum(v["line_total"] ...), 2)`. -/
def cart_total (cart : Cart) : ℚ :=
  round2 ((cartLines cart).map (fun l => l.line_total)).sum

/-- `reset_cart()`. -/
def reset_cart : Cart := []

/-- One step of the checkout validation loop: the looked-up row is empty or
its current stock is strictly below the line quantity. -/
def lineInsufficient (inv : List ItemRow) (l : CartLine) : Bool :=
  match inv.find? (fun r => r.name == l.itemName) with
  | none => true
  | some r => decide (r.stock < l.qty)

/-- The checkout validation loop: walks the cart lines in order and returns
the first line failing the stock check (the loop `break`s there), or `none`. -/
def firstStockError (inv : List ItemRow) : Cart → Option CartLine
  | [] => none
  | (_, l) :: rest =>
    if lineInsufficient inv l then some l else firstStockError inv rest

/-- The order id: `f"ORD-{timestamp}-{suffix}"` where `timestamp` is
`datetime.now().strftime('%Y%m%d-%H%M%S')` and `suffix` the first 8 characters
of a fresh `uuid4`, uppercased. -/
def mkOrderId (timestamp suffix : String) : String :=
  "ORD-" ++ timestamp ++ "-" ++ suffix

/-- The order record produced by a successful checkout (order id, customer
fields, items snapshot, total), as stashed in session state for the receipt. -/
structure Order where
  id : String
  customer : String
  phone : String
  total : ℚ
  items : List CartLine
deriving DecidableEq

/-- The per-session state: the loaded inventory, the cart, and the last
placed order (receipt data). -/
structure SessionState where
  inventory : List ItemRow
  cart : Cart
  lastOrder : Option Order
deriving DecidableEq

/-- The outcome of submitting the checkout form. -/
inductive CheckoutOutcome
  | emptyCart
  | missingFields
  | insufficient (l : CartLine)
  | placed (oid : String)
deriving DecidableEq

/-- The `checkout_form` submit handler: empty-cart warning, then the
customer-field / acknowledgment check, then the fail-fast stock validation,
and on success order creation (`oid`, receipt) followed by `reset_cart()`.
The wall-clock timestamp and the random uuid suffix are explicit inputs. -/
def checkout (st : SessionState) (customer phone : String) (agree : Bool)
    (timestamp suffix : String) : SessionState × CheckoutOutcome :=
  if st.cart.isEmpty then
    (st, .emptyCart)
  else if customer = "" ∨ phone = "" ∨ agree = false then
    (st, .missingFields)
  else
    match firstStockError st.inventory st.cart with
    | some l => (st, .insufficient l)
    | none =>
      let oid := mkOrderId timestamp suffix
      let o : Order :=
        { id := oid
          customer := customer
          phone := phone
          total := cart_total st.cart
          items := cartLines st.cart }
      ({ st with cart := reset_cart, lastOrder := some o }, .placed oid)

/-- A cart mutation available to the user: the add-to-cart form or the
clear-cart button. -/
inductive CartOp
  | add (row : ItemRow) (qty : ℤ)
  | clear

/-- Applying one cart mutation. -/
def applyCartOp (hashFn : String → ℤ) (cart : Cart) : CartOp → Cart
  | .add row qty => add_to_cart hashFn row qty cart
  | .clear => reset_cart

/-- Applying a sequence of cart mutations in order. -/
def applyCartOps (hashFn : String → ℤ) (cart : Cart) (ops : List CartOp) : Cart :=
  ops.foldl (applyCartOp hashFn) cart

/-- A whole-session action: a cart mutation, a total recomputation, or a
checkout-form submission. -/
inductive SessionOp
  | add (row : ItemRow) (qty : ℤ)
  | clear
  | total
  | doCheckout (customer phone : String) (agree : Bool) (timestamp suffix : String)

/-- Applying one session action to the session state. -/
def applySessionOp (hashFn : String → ℤ) (st : SessionState) : SessionOp → SessionState
  | .add row qty => { st with cart := add_to_cart hashFn row qty st.cart }
  | .clear => { st with cart := reset_cart }
  | .total => st
  | .doCheckout c p a t s => (checkout st c p a t s).1

/-- Applying a sequence of session actions in order. -/
def applySessionOps (hashFn : String → ℤ) (st : SessionState) (ops : List SessionOp) :
    SessionState :=
  ops.foldl (applySessionOp hashFn) st

/-- A rational with at most two decimal places. -/
def is2dec (q : ℚ) : Prop := ∃ n : ℤ, q = n / 100

/-- A sample hash function standing in for Python's string hash. -/
def hashLen : String → ℤ := fun s => (s.length : ℤ)

/-- A sample inventory row. -/
def appleRow : ItemRow :=
  { sNo := some 1, category := "Fruit", name := "Apple", stock := 10, price := 1/2 }

/-- A sample inventory row with stock 2, for the stock-overflow scenario. -/
def milkRow : ItemRow :=
  { sNo := some 2, category := "Dairy", name := "Milk", stock := 2, price := 3 }

/-- A sample session whose cart holds 2 Apples. -/
def stA : SessionState :=
  { inventory := [appleRow], cart := add_to_cart hashLen appleRow 2 [], lastOrder := none }

/-- A second sample session with a different cart. -/
def stB : SessionState :=
  { inventory := [appleRow], cart := add_to_cart hashLen appleRow 3 [], lastOrder := none }

/-- A sample session whose cart quantity 11 exceeds the Apple stock 10. -/
def stOver : SessionState :=
  { inventory := [appleRow], cart := [(1, newLine appleRow 11)], lastOrder := none }

/-- A sample raw table with all required columns: one complete row and one
row with a missing name and unparseable numeric cells. -/
def fullTable : RawTable :=
  { cols := REQUIRED_COLS
    rows := [ { sNoCell := .num 1, categoryCell := some "Fruit", nameCell := some "Apple",
                qtyCell := .num 10, priceCell := .num (1/2) },
              { sNoCell := .num 2, categoryCell := some "Dairy", nameCell := none,
                qtyCell := .text, priceCell := .empty } ] }

end Grocery

namespace Grocery

/-- Helper: adding a key absent from the cart appends one fresh line at the end. -/
theorem add_fresh (hashFn : String → ℤ) (row : ItemRow) (qty : ℤ) (c : Cart)
    (h : ∀ p ∈ c, p.1 ≠ cartKey hashFn row) :
    add_to_cart hashFn row qty c = c ++ [(cartKey hashFn row, newLine row qty)] := by
  unfold add_to_cart
  have hany : c.any (fun p => p.1 == cartKey hashFn row) = false := by
    simp only [List.any_eq_false]
    intro p hp
    simpa using h p hp
  simp [hany]

/-- Helper: adding a key present exactly at the end bumps that line in place. -/
theorem add_present_last (hashFn : String → ℤ) (row : ItemRow) (qty : ℤ) (c : Cart)
    (l : CartLine) (h : ∀ p ∈ c, p.1 ≠ cartKey hashFn row) :
    add_to_cart hashFn row qty (c ++ [(cartKey hashFn row, l)])
      = c ++ [(cartKey hashFn row, bumpLine l qty)] := by
  unfold add_to_cart
  have hany : (c ++ [(cartKey hashFn row, l)]).any (fun p => p.1 == cartKey hashFn row) = true := by
    simp
  rw [if_pos hany]
  rw [List.map_append]
  congr 1
  · have : ∀ p ∈ c, (if p.1 == cartKey hashFn row then (p.1, bumpLine p.2 qty) else p) = id p := by
      intro p hp
      simp [h p hp]
    rw [List.map_congr_left this, List.map_id]
  · simp

/-- C1: adding the same item twice, with quantities q1 then q2, into a cart
that does not yet hold it, yields exactly one cart line for that item's key,
grows the cart by exactly one line (no duplicate), and that line has quantity
q1 + q2, the unit price snapshotted at the first add, and line total
`round2 ((q1 + q2) * unit price)`. -/
theorem add_same_item_twice_merges (hashFn : String → ℤ) (row : ItemRow) (q1 q2 : ℤ) (c : Cart)
    (h : ∀ p ∈ c, p.1 ≠ cartKey hashFn row) :
    (add_to_cart hashFn row q2 (add_to_cart hashFn row q1 c)).countP
        (fun p => p.1 == cartKey hashFn row) = 1 ∧
    (add_to_cart hashFn row q2 (add_to_cart hashFn row q1 c)).length = c.length + 1 ∧
    ∀ l, (cartKey hashFn row, l) ∈ add_to_cart hashFn row q2 (add_to_cart hashFn row q1 c) →
      l.qty = q1 + q2 ∧ l.unit_price = row.price ∧
      l.line_total = round2 (((q1 + q2 : ℤ) : ℚ) * row.price) := by
  have e1 := add_fresh hashFn row q1 c h
  have e2 := add_present_last hashFn row q2 c (newLine row q1) h
  rw [e1, e2]
  refine ⟨?_, by simp, ?_⟩
  · rw [List.countP_append]
    have hc : c.countP (fun p => p.1 == cartKey hashFn row) = 0 := by
      rw [List.countP_eq_zero]
      intro p hp
      simpa using h p hp
    simp [hc]
  · intro l hl
    rcases List.mem_append.1 hl with hmem | hmem
    · exact absurd rfl (h _ hmem)
    · have : l = bumpLine (newLine row q1) q2 := by simpa using hmem
      subst this
      refine ⟨by simp [bumpLine, newLine], by simp [bumpLine, newLine], ?_⟩
      simp [bumpLine, newLine]

/-- C1 witness: the theorem instantiated with adding 3 apples twice into the
empty cart. -/
theorem add_same_item_twice_merges_witness :
    (∀ p ∈ ([] : Cart), p.1 ≠ cartKey hashLen appleRow) ∧
    ((add_to_cart hashLen appleRow 3 (add_to_cart hashLen appleRow 3 [])).countP
        (fun p => p.1 == cartKey hashLen appleRow) = 1 ∧
      (add_to_cart hashLen appleRow 3 (add_to_cart hashLen appleRow 3 [])).length
        = ([] : Cart).length + 1 ∧
      ∀ l, (cartKey hashLen appleRow, l) ∈
          add_to_cart hashLen appleRow 3 (add_to_cart hashLen appleRow 3 []) →
        l.qty = 3 + 3 ∧ l.unit_price = appleRow.price ∧
        l.line_total = round2 (((3 + 3 : ℤ) : ℚ) * appleRow.price)) :=
  ⟨by simp, add_same_item_twice_merges hashLen appleRow 3 3 [] (by simp)⟩

/-- Helper: the validation loop returns exactly the first failing cart line. -/
theorem firstStockError_eq_find (inv : List ItemRow) (c : Cart) :
    firstStockError inv c = (cartLines c).find? (fun l => lineInsufficient inv l) := by
  induction c with
  | nil => rfl
  | cons p rest ih =>
    by_cases hl : lineInsufficient inv p.2 <;>
      simp [firstStockError, cartLines, List.find?, hl, ih]

/-- C2: checkout validation walks the cart lines in order and fails at the
first line whose item is absent from the inventory (lookup by item name) or
whose current stock is strictly below the line quantity; it stops at the
first failing line (it equals `List.find?` of the failure predicate). -/
theorem checkout_validation_fail_fast (inv : List ItemRow) (c : Cart) :
    firstStockError inv c = (cartLines c).find? (fun l => lineInsufficient inv l) ∧
    (∀ l : CartLine, lineInsufficient inv l = true ↔
      (inv.find? (fun r => r.name == l.itemName) = none ∨
       ∃ r, inv.find? (fun r => r.name == l.itemName) = some r ∧ r.stock < l.qty)) := by
  refine ⟨firstStockError_eq_find inv c, ?_⟩
  intro l
  unfold lineInsufficient
  cases hf : inv.find? (fun r => r.name == l.itemName) with
  | none => simp
  | some r => simp

/-- C2 witness: the fail-fast characterization at a concrete inventory and
cart, and the failure condition at a concrete over-stock line. -/
theorem checkout_validation_fail_fast_witness :
    (firstStockError [appleRow] stOver.cart =
      (cartLines stOver.cart).find? (fun l => lineInsufficient [appleRow] l)) ∧
    (lineInsufficient [appleRow] (newLine appleRow 11) = true ↔
      ([appleRow].find? (fun r => r.name == (newLine appleRow 11).itemName) = none ∨
       ∃ r, [appleRow].find? (fun r => r.name == (newLine appleRow 11).itemName) = some r ∧
         r.stock < (newLine appleRow 11).qty)) :=
  ⟨(checkout_validation_fail_fast [appleRow] stOver.cart).1,
   (checkout_validation_fail_fast [appleRow] stOver.cart).2 (newLine appleRow 11)⟩

/-- C3: if some cart line fails the stock check, the checkout form leaves the
whole session state (in particular the cart) unchanged and places no order. -/
theorem failed_checkout_preserves_cart (st : SessionState) (customer phone : String)
    (agree : Bool) (ts suffix : String)
    (h : ∃ l ∈ cartLines st.cart, lineInsufficient st.inventory l = true) :
    (checkout st customer phone agree ts suffix).1 = st ∧
    ∀ oid, (checkout st customer phone agree ts suffix).2 ≠ .placed oid := by
  have hfind : firstStockError st.inventory st.cart ≠ none := by
    rw [firstStockError_eq_find]
    obtain ⟨l, hl, hins⟩ := h
    intro hnone
    rw [List.find?_eq_none] at hnone
    exact absurd hins (by simpa using hnone l hl)
  unfold checkout
  by_cases h1 : st.cart.isEmpty
  · simp [h1]
  · by_cases h2 : customer = "" ∨ phone = "" ∨ agree = false
    · simp [h1, h2]
    · cases hfe : firstStockError st.inventory st.cart with
      | none => exact absurd hfe hfind
      | some l => simp [h1, h2, hfe]

/-- C3 witness: a checkout over a cart holding 11 Apples against stock 10
fails and changes nothing. -/
theorem failed_checkout_preserves_cart_witness :
    (∃ l ∈ cartLines stOver.cart, lineInsufficient stOver.inventory l = true) ∧
    ((checkout stOver "Ann" "555" true "20251012-170000" "AAAA1111").1 = stOver ∧
      ∀ oid, (checkout stOver "Ann" "555" true "20251012-170000" "AAAA1111").2
        ≠ .placed oid) := by
  have hyp : ∃ l ∈ cartLines stOver.cart, lineInsufficient stOver.inventory l = true := by
    refine ⟨newLine appleRow 11, by simp [stOver, cartLines], ?_⟩
    simp [lineInsufficient, stOver, appleRow, newLine]
  exact ⟨hyp,
    failed_checkout_preserves_cart stOver "Ann" "555" true "20251012-170000" "AAAA1111" hyp⟩

theorem is2dec_round2 (q : ℚ) : is2dec (round2 q) := ⟨round (q * 100), rfl⟩

theorem round2_of_is2dec (q : ℚ) (h : is2dec q) : round2 q = q := by
  obtain ⟨n, rfl⟩ := h
  unfold round2
  rw [div_mul_cancel₀]
  · rw [round_intCast]
  · norm_num

theorem is2dec_sum (l : List ℚ) (h : ∀ q ∈ l, is2dec q) : is2dec l.sum := by
  induction l with
  | nil => exact ⟨0, by simp⟩
  | cons q rest ih =>
    obtain ⟨n, hn⟩ := h q (by simp)
    obtain ⟨m, hm⟩ := ih (fun q hq => h q (by simp [hq]))
    refine ⟨n + m, ?_⟩
    rw [List.sum_cons, hn, hm]
    push_cast
    ring

theorem add_lines_2dec (hashFn : String → ℤ) (row : ItemRow) (qty : ℤ) (c : Cart)
    (h : ∀ l ∈ cartLines c, is2dec l.line_total) :
    ∀ l ∈ cartLines (add_to_cart hashFn row qty c), is2dec l.line_total := by
  intro l hl
  unfold add_to_cart at hl
  by_cases hany : c.any (fun p => p.1 == cartKey hashFn row)
  · rw [if_pos hany] at hl
    unfold cartLines at hl
    rw [List.map_map] at hl
    obtain ⟨p, hp, hpl⟩ := List.mem_map.1 hl
    by_cases hk : p.1 == cartKey hashFn row
    · simp only [Function.comp, hk, if_pos] at hpl
      rw [← hpl]
      exact is2dec_round2 _
    · simp only [Function.comp, hk, if_neg, Bool.false_eq_true] at hpl
      rw [← hpl]
      exact h p.2 (List.mem_map.2 ⟨p, hp, rfl⟩)
  · rw [if_neg hany] at hl
    unfold cartLines at hl
    rw [List.map_append] at hl
    rcases List.mem_append.1 hl with hmem | hmem
    · exact h l hmem
    · have : l = newLine row qty := by simpa using hmem
      rw [this]
      exact is2dec_round2 _

theorem reachable_lines_2dec (hashFn : String → ℤ) (ops : List CartOp) (c : Cart)
    (h : ∀ l ∈ cartLines c, is2dec l.line_total) :
    ∀ l ∈ cartLines (applyCartOps hashFn c ops), is2dec l.line_total := by
  induction ops generalizing c with
  | nil => exact h
  | cons op rest ih =>
    cases op with
    | add row qty =>
      exact ih (add_to_cart hashFn row qty c) (add_lines_2dec hashFn row qty c h)
    | clear =>
      exact ih reset_cart (by simp [cartLines, reset_cart])

/-- C4: for every cart reached from the empty cart by any sequence of add and
clear mutations, `cart_total` equals the sum of the current line totals
rounded to 2 decimal places, and that rounding is exact: the rounded total
coincides with the plain sum, because every stored line total already has at
most two decimals. -/
theorem cart_total_eq_sum_line_totals (hashFn : String → ℤ) (ops : List CartOp) :
    cart_total (applyCartOps hashFn [] ops) =
      round2 ((cartLines (applyCartOps hashFn [] ops)).map (fun l => l.line_total)).sum ∧
    cart_total (applyCartOps hashFn [] ops) =
      ((cartLines (applyCartOps hashFn [] ops)).map (fun l => l.line_total)).sum := by
  refine ⟨rfl, ?_⟩
  unfold cart_total
  apply round2_of_is2dec
  apply is2dec_sum
  intro q hq
  obtain ⟨l, hl, rfl⟩ := List.mem_map.1 hq
  exact reachable_lines_2dec hashFn ops [] (by simp [cartLines]) l hl

/-- C5: the checkout form places an order exactly when the cart is nonempty,
both customer fields are filled, the acknowledgment box is checked, and every
cart line passes the stock validation; in that case the resulting cart is
empty and the order (with the reported id) is stored; in every other case the
session state is left untouched, so an order is created only on this path. -/
theorem successful_checkout_clears_cart (st : SessionState) (customer phone : String)
    (agree : Bool) (ts suffix : String) :
    ((∃ oid, (checkout st customer phone agree ts suffix).2 = .placed oid) ↔
      (st.cart ≠ [] ∧ customer ≠ "" ∧ phone ≠ "" ∧ agree = true ∧
        firstStockError st.inventory st.cart = none)) ∧
    (∀ oid, (checkout st customer phone agree ts suffix).2 = .placed oid →
      (checkout st customer phone agree ts suffix).1.cart = [] ∧
      ∃ o : Order, (checkout st customer phone agree ts suffix).1.lastOrder = some o ∧
        o.id = oid) ∧
    ((∀ oid, (checkout st customer phone agree ts suffix).2 ≠ .placed oid) →
      (checkout st customer phone agree ts suffix).1 = st) := by
  unfold checkout
  by_cases h1 : st.cart.isEmpty
  · have : st.cart = [] := by simpa [List.isEmpty_iff] using h1
    simp [h1, this]
  · have hne : st.cart ≠ [] := by simpa [List.isEmpty_iff] using h1
    by_cases h2 : customer = "" ∨ phone = "" ∨ agree = false
    · simp only [h1, if_false, h2, if_true, Bool.false_eq_true]
      constructor
      · constructor
        · rintro ⟨oid, hoid⟩
          simp at hoid
        · rintro ⟨-, hc, hp, ha, -⟩
          rcases h2 with h2 | h2 | h2
          · exact absurd h2 hc
          · exact absurd h2 hp
          · rw [ha] at h2; simp at h2
      · simp
    · push_neg at h2
      obtain ⟨hc, hp, ha⟩ := h2
      have ha' : agree = true := by simpa using ha
      cases hfe : firstStockError st.inventory st.cart with
      | some l =>
        simp [h1, hc, hp, ha', hfe, hne]
      | none =>
        simp [h1, hc, hp, ha', hfe, hne, reset_cart]

/-- C5 witness: a concrete successful checkout empties the cart and stores
the order with the reported id. -/
theorem successful_checkout_clears_cart_witness :
    (checkout stA "Ann" "555" true "20251012-170000" "AAAA1111").1.cart = [] ∧
    ∃ o : Order, (checkout stA "Ann" "555" true "20251012-170000" "AAAA1111").1.lastOrder
        = some o ∧ o.id = "ORD-20251012-170000-AAAA1111" := by
  apply (successful_checkout_clears_cart stA "Ann" "555" true "20251012-170000" "AAAA1111").2.1
  show (checkout stA "Ann" "555" true "20251012-170000" "AAAA1111").2
    = .placed "ORD-20251012-170000-AAAA1111"
  simp [checkout, stA, add_to_cart, cartKey, appleRow, newLine, firstStockError,
    lineInsufficient, mkOrderId]

/-- C6 counterexample: two different successful checkouts in the same second
whose 8-character random suffixes happen to coincide produce identical order
ids, so same-second order ids are not unconditionally distinct. -/
theorem order_id_collision_same_second :
    (checkout stA "Ann" "555" true "20251012-170000" "1A2B3C4D").2 =
      .placed "ORD-20251012-170000-1A2B3C4D" ∧
    (checkout stB "Bob" "556" true "20251012-170000" "1A2B3C4D").2 =
      .placed "ORD-20251012-170000-1A2B3C4D" ∧
    stA ≠ stB := by
  refine ⟨?_, ?_, ?_⟩
  · simp [checkout, stA, add_to_cart, cartKey, appleRow, newLine, firstStockError,
      lineInsufficient, mkOrderId]
  · simp [checkout, stB, add_to_cart, cartKey, appleRow, newLine, firstStockError,
      lineInsufficient, mkOrderId]
  · intro h
    have h2 : (cartLines stA.cart).map (fun l => l.qty)
        = (cartLines stB.cart).map (fun l => l.qty) := by rw [h]
    simp [stA, stB, add_to_cart, cartKey, appleRow, newLine, cartLines] at h2

/-- Helper: any outcome `placed oid` comes from the success branch, so the id
is `mkOrderId timestamp suffix`. -/
theorem placed_oid_eq (st : SessionState) (c p : String) (a : Bool) (t s oid : String)
    (h : (checkout st c p a t s).2 = .placed oid) : oid = mkOrderId t s := by
  unfold checkout at h
  by_cases h1 : st.cart.isEmpty
  · simp [h1] at h
  · by_cases h2 : c = "" ∨ p = "" ∨ a = false
    · simp [h1, h2] at h
    · cases hfe : firstStockError st.inventory st.cart with
      | some l => simp [h1, h2, hfe] at h
      | none =>
        simp [h1, h2, hfe] at h
        exact h.symm

theorem lex_extend_left {r : Char → Char → Prop} (p a b : List Char)
    (h : List.Lex r a b) : List.Lex r (p ++ a) (p ++ b) := by
  induction p with
  | nil => exact h
  | cons c cs ih => exact List.Lex.cons ih

theorem lex_append_of_length_eq {r : Char → Char → Prop} :
    ∀ (a b x y : List Char), List.Lex r a b → a.length = b.length →
      List.Lex r (a ++ x) (b ++ y) := by
  intro a b x y h
  induction h with
  | nil => intro hlen; simp at hlen
  | @cons c l1 l2 h ih =>
    intro hlen
    exact List.Lex.cons (ih (by simpa using hlen))
  | rel h => intro _; exact List.Lex.rel h

/-- C6 amended: every order id produced by a successful checkout has the form
prefix + compact timestamp + 8-character random suffix; two successful
checkouts in the same second get distinct ids if and only if their random
suffixes differ (a suffix collision yields a duplicate id); and ids from
distinct seconds sort lexicographically by creation time. -/
theorem order_id_shape (st st' : SessionState) (c p c' p' : String) (a a' : Bool)
    (t s t' s' oid oid' : String)
    (h : (checkout st c p a t s).2 = .placed oid)
    (h' : (checkout st' c' p' a' t' s').2 = .placed oid') :
    oid = "ORD-" ++ t ++ "-" ++ s ∧
    (t = t' → (oid ≠ oid' ↔ s ≠ s')) ∧
    (t.length = t'.length → t < t' → oid < oid') := by
  have e1 : oid = mkOrderId t s := placed_oid_eq st c p a t s oid h
  have e2 : oid' = mkOrderId t' s' := placed_oid_eq st' c' p' a' t' s' oid' h'
  subst e1; subst e2
  refine ⟨rfl, ?_, ?_⟩
  · intro ht
    subst ht
    unfold mkOrderId
    constructor
    · intro hne heq
      exact hne (by rw [heq])
    · intro hne heq
      apply hne
      have : ("ORD-" ++ t ++ "-").data ++ s.data = ("ORD-" ++ t ++ "-").data ++ s'.data := by
        have := congrArg String.data heq
        simpa [String.data_append, List.append_assoc] using this
      have := List.append_cancel_left this
      exact String.toList_inj.1 this
  · intro hlen hlt
    unfold mkOrderId
    rw [String.lt_iff_toList_lt] at hlt ⊢
    have hlex : List.Lex (· < ·) t.toList t'.toList := hlt
    show List.Lex (· < ·) ("ORD-" ++ t ++ "-" ++ s).data ("ORD-" ++ t' ++ "-" ++ s').data
    have ed : ∀ (u v : String), ("ORD-" ++ u ++ "-" ++ v).data
        = "ORD-".data ++ (u.data ++ ("-".data ++ v.data)) := by
      intro u v
      simp [String.data_append, List.append_assoc]
    rw [ed, ed]
    apply lex_extend_left
    apply lex_append_of_length_eq
    · exact hlex
    · exact hlen

/-- C6 amended witness: two concrete successful checkouts one second apart
with equal suffixes; the format holds, equal suffixes in the same second mean
no id distinction, and the earlier second sorts first. -/
theorem order_id_shape_witness :
    ((checkout stA "Ann" "555" true "20251012-170000" "AAAA1111").2 =
      .placed "ORD-20251012-170000-AAAA1111") ∧
    ((checkout stB "Bob" "556" true "20251012-170001" "AAAA1111").2 =
      .placed "ORD-20251012-170001-AAAA1111") ∧
    ("ORD-20251012-170000-AAAA1111" = "ORD-" ++ "20251012-170000" ++ "-" ++ "AAAA1111" ∧
     ("20251012-170000" = "20251012-170001" →
       ("ORD-20251012-170000-AAAA1111" ≠ "ORD-20251012-170001-AAAA1111" ↔
         "AAAA1111" ≠ "AAAA1111")) ∧
     (("20251012-170000" : String).length = ("20251012-170001" : String).length →
       ("20251012-170000" : String) < "20251012-170001" →
       ("ORD-20251012-170000-AAAA1111" : String) < "ORD-20251012-170001-AAAA1111")) := by
  have h1 : (checkout stA "Ann" "555" true "20251012-170000" "AAAA1111").2 =
      .placed "ORD-20251012-170000-AAAA1111" := by
    simp [checkout, stA, add_to_cart, cartKey, appleRow, newLine, firstStockError,
      lineInsufficient, mkOrderId]
  have h2 : (checkout stB "Bob" "556" true "20251012-170001" "AAAA1111").2 =
      .placed "ORD-20251012-170001-AAAA1111" := by
    simp [checkout, stB, add_to_cart, cartKey, appleRow, newLine, firstStockError,
      lineInsufficient, mkOrderId]
  exact ⟨h1, h2,
    order_id_shape stA stB "Ann" "555" "Bob" "556" true true
      "20251012-170000" "AAAA1111" "20251012-170001" "AAAA1111"
      "ORD-20251012-170000-AAAA1111" "ORD-20251012-170001-AAAA1111" h1 h2⟩

/-- C7: normalization fails exactly when a required column is absent, and the
error lists exactly the absent columns; on success the result consists of the
rows possessing a name (and only those), each with quantity and price made
numeric; unparseable quantity or price cells become zero. -/
theorem normalize_inventory_spec (t : RawTable) :
    (∀ err, normalize_inventory t = .error err →
      err ≠ [] ∧ ∀ c, c ∈ err ↔ (c ∈ REQUIRED_COLS ∧ c ∉ t.cols)) ∧
    ((∀ c ∈ REQUIRED_COLS, c ∈ t.cols) →
      normalize_inventory t = .ok ((t.rows.filter (fun r => r.nameCell.isSome)).map cookRow)) ∧
    ((∃ c ∈ REQUIRED_COLS, c ∉ t.cols) → ∀ rows, normalize_inventory t ≠ .ok rows) ∧
    (∀ r : RawRow, toNumericOpt r.qtyCell = none → (cookRow r).stock = 0) ∧
    (∀ r : RawRow, toNumericOpt r.priceCell = none → (cookRow r).price = 0) := by
  refine ⟨?_, ?_, ?_, ?_, ?_⟩
  · intro err herr
    unfold normalize_inventory at herr
    by_cases hm : (REQUIRED_COLS.filter (fun c => ! t.cols.contains c)).isEmpty
    · rw [if_pos hm] at herr
      simp at herr
    · rw [if_neg hm] at herr
      rw [Except.error.injEq] at herr
      subst herr
      constructor
      · intro hnil
        rw [hnil] at hm
        simp at hm
      · intro c
        simp [List.mem_filter]
  · intro hall
    unfold normalize_inventory
    have hm : (REQUIRED_COLS.filter (fun c => ! t.cols.contains c)) = [] := by
      rw [List.filter_eq_nil_iff]
      intro c hc
      simp [hall c hc]
    rw [hm]
    simp only [List.isEmpty_nil, if_true, Except.ok.injEq]
    rw [List.filter_map]
    congr 1
  · rintro ⟨c, hc, hnc⟩ rows hok
    unfold normalize_inventory at hok
    by_cases hm : (REQUIRED_COLS.filter (fun c => ! t.cols.contains c)).isEmpty
    · rw [List.isEmpty_iff, List.filter_eq_nil_iff] at hm
      exact absurd (by simpa using hm c hc) hnc
    · rw [if_neg hm] at hok
      simp at hok
  · intro r h
    simp [cookRow, h, intOfRat]
  · intro r h
    simp [cookRow, h]

/-- C7 witness: a concrete table with all required columns normalizes to its
named rows, coerced. -/
theorem normalize_inventory_spec_witness :
    normalize_inventory fullTable =
      .ok ((fullTable.rows.filter (fun r => r.nameCell.isSome)).map cookRow) :=
  (normalize_inventory_spec fullTable).2.1 (by decide)

/-- C8: the loaded inventory is never modified: every sequence of session
actions (add to cart, clear cart, total recomputation, checkout attempts
successful or failed) leaves the inventory component of the session state
unchanged; in particular a successful checkout does not decrement stock. -/
theorem inventory_immutable (hashFn : String → ℤ) (st : SessionState) (ops : List SessionOp) :
    (applySessionOps hashFn st ops).inventory = st.inventory := by
  induction ops generalizing st with
  | nil => rfl
  | cons op rest ih =>
    have hstep : ∀ s : SessionState, (applySessionOp hashFn s op).inventory = s.inventory := by
      intro s
      cases op with
      | add row qty => rfl
      | clear => rfl
      | total => rfl
      | doCheckout c p a t suf =>
        show (checkout s c p a t suf).1.inventory = s.inventory
        unfold checkout
        by_cases h1 : s.cart.isEmpty
        · simp [h1]
        · by_cases h2 : c = "" ∨ p = "" ∨ a = false
          · simp [h1, h2]
          · cases hfe : firstStockError s.inventory s.cart <;> simp [h1, h2, hfe]
    rw [applySessionOps, List.foldl_cons, ← applySessionOps, ih, hstep]

/-- C9: `add_to_cart` performs no stock check: for an item present in the
inventory and two quantities each between 1 and the stock whose sum exceeds
the stock, both adds go through, merging into a single line whose quantity
exceeds the stock, and only the checkout validation flags that line. -/
theorem add_no_stock_check_overflows (hashFn : String → ℤ) (row : ItemRow)
    (inv : List ItemRow) (q1 q2 : ℤ)
    (hfind : inv.find? (fun r => r.name == row.name) = some row)
    (hq1 : 1 ≤ q1) (hq1s : q1 ≤ row.stock) (hq2 : 1 ≤ q2) (hq2s : q2 ≤ row.stock)
    (hover : row.stock < q1 + q2) :
    ∃ l : CartLine,
      add_to_cart hashFn row q2 (add_to_cart hashFn row q1 []) = [(cartKey hashFn row, l)] ∧
      l.qty = q1 + q2 ∧ row.stock < l.qty ∧
      firstStockError inv (add_to_cart hashFn row q2 (add_to_cart hashFn row q1 [])) =
        some l := by
  have e1 : add_to_cart hashFn row q1 [] = [(cartKey hashFn row, newLine row q1)] := by
    simpa using add_fresh hashFn row q1 [] (by simp)
  have e2 : add_to_cart hashFn row q2 [(cartKey hashFn row, newLine row q1)]
      = [(cartKey hashFn row, bumpLine (newLine row q1) q2)] := by
    simpa using add_present_last hashFn row q2 [] (newLine row q1) (by simp)
  refine ⟨bumpLine (newLine row q1) q2, ?_, ?_, ?_, ?_⟩
  · rw [e1, e2]
  · simp [bumpLine, newLine]
  · simp only [bumpLine, newLine]
    exact hover
  · rw [e1, e2]
    unfold firstStockError
    have hins : lineInsufficient inv (bumpLine (newLine row q1) q2) = true := by
      unfold lineInsufficient
      have : (bumpLine (newLine row q1) q2).itemName = row.name := by simp [bumpLine, newLine]
      rw [this, hfind]
      simp [bumpLine, newLine, hover]
    rw [hins]
    simp

/-- C9 witness: Milk with stock 2, added as 2 then 1 (each within stock),
merges into one line of quantity 3 that the checkout validation flags. -/
theorem add_no_stock_check_overflows_witness :
    ([milkRow].find? (fun r => r.name == milkRow.name) = some milkRow) ∧
    ((1:ℤ) ≤ 2 ∧ (2:ℤ) ≤ milkRow.stock ∧ (1:ℤ) ≤ 1 ∧ (1:ℤ) ≤ milkRow.stock ∧
      milkRow.stock < 2 + 1) ∧
    (∃ l : CartLine,
      add_to_cart hashLen milkRow 1 (add_to_cart hashLen milkRow 2 [])
        = [(cartKey hashLen milkRow, l)] ∧
      l.qty = 2 + 1 ∧ milkRow.stock < l.qty ∧
      firstStockError [milkRow] (add_to_cart hashLen milkRow 1 (add_to_cart hashLen milkRow 2 []))
        = some l) := by
  have hfind : [milkRow].find? (fun r => r.name == milkRow.name) = some milkRow := by
    simp [milkRow]
  refine ⟨hfind, ⟨by norm_num, by norm_num [milkRow], by norm_num, by norm_num [milkRow],
    by norm_num [milkRow]⟩, ?_⟩
  exact add_no_stock_check_overflows hashLen milkRow [milkRow] 2 1 hfind
    (by norm_num) (by norm_num [milkRow]) (by norm_num) (by norm_num [milkRow])
    (by norm_num [milkRow])

/-- C10: starting from an empty cart, two adds merge into a single line if
and only if they resolve to the same dict key (S.No when present, hash of the
name otherwise); rows sharing a name can fail to merge and rows with distinct
names can merge; checkout validation, by contrast, depends on a line only
through the stored item name and quantity. -/
theorem merge_iff_same_key :
    (∀ (hashFn : String → ℤ) (r1 r2 : ItemRow) (q1 q2 : ℤ),
      (add_to_cart hashFn r2 q2 (add_to_cart hashFn r1 q1 [])).length = 1 ↔
        cartKey hashFn r2 = cartKey hashFn r1) ∧
    (∃ (hashFn : String → ℤ) (r1 r2 : ItemRow) (q1 q2 : ℤ),
      r1.name = r2.name ∧
      (add_to_cart hashFn r2 q2 (add_to_cart hashFn r1 q1 [])).length = 2) ∧
    (∃ (hashFn : String → ℤ) (r1 r2 : ItemRow) (q1 q2 : ℤ),
      r1.name ≠ r2.name ∧
      (add_to_cart hashFn r2 q2 (add_to_cart hashFn r1 q1 [])).length = 1) ∧
    (∀ (inv : List ItemRow) (l1 l2 : CartLine),
      l1.itemName = l2.itemName → l1.qty = l2.qty →
        lineInsufficient inv l1 = lineInsufficient inv l2) := by
  have key_split : ∀ (hashFn : String → ℤ) (r1 r2 : ItemRow) (q1 q2 : ℤ),
      add_to_cart hashFn r2 q2 (add_to_cart hashFn r1 q1 []) =
        if cartKey hashFn r2 = cartKey hashFn r1 then
          [(cartKey hashFn r1, bumpLine (newLine r1 q1) q2)]
        else
          [(cartKey hashFn r1, newLine r1 q1), (cartKey hashFn r2, newLine r2 q2)] := by
    intro hashFn r1 r2 q1 q2
    have e1 : add_to_cart hashFn r1 q1 [] = [(cartKey hashFn r1, newLine r1 q1)] := by
      simpa using add_fresh hashFn r1 q1 [] (by simp)
    rw [e1]
    by_cases hk : cartKey hashFn r2 = cartKey hashFn r1
    · rw [if_pos hk]
      have := add_present_last hashFn r2 q2 [] (newLine r1 q1) (by simp)
      simp only [List.nil_append] at this
      rw [← hk, this]
    · rw [if_neg hk]
      have := add_fresh hashFn r2 q2 [(cartKey hashFn r1, newLine r1 q1)]
        (by simpa using fun hh => hk hh.symm)
      rw [this]
      simp
  refine ⟨?_, ?_, ?_, ?_⟩
  · intro hashFn r1 r2 q1 q2
    rw [key_split]
    by_cases hk : cartKey hashFn r2 = cartKey hashFn r1 <;> simp [hk]
  · refine ⟨fun _ => 0, ⟨some 1, "X", "A", 5, 1⟩, ⟨some 2, "X", "A", 5, 1⟩, 1, 1, rfl, ?_⟩
    rw [key_split]
    simp [cartKey]
  · refine ⟨fun _ => 0, ⟨some 7, "X", "A", 5, 1⟩, ⟨some 7, "Y", "B", 5, 1⟩, 1, 1, by simp, ?_⟩
    rw [key_split]
    simp [cartKey]
  · intro inv l1 l2 hn hq
    unfold lineInsufficient
    rw [hn, hq]

/-- C10 witness: adding the same Apple row twice produces a single merged
line, by the key criterion. -/
theorem merge_iff_same_key_witness :
    (add_to_cart hashLen appleRow 1 (add_to_cart hashLen appleRow 1 [])).length = 1 :=
  (merge_iff_same_key.1 hashLen appleRow appleRow 1 1).2 rfl

end Grocery
